import Mathlib

/-!
Verification of the trust-bundle maintenance code (`certrotation`) and the
declarative resource-sync engine (`resourcesynccontroller`) of the
library-go repository, via a shallow embedding of the Go source into Lean.
-/

namespace LibraryGo

/-! ## Certificates and PEM blobs

An X.509 certificate is modelled by the data the algorithms inspect: its raw
DER bytes (used for duplicate detection via `reflect.DeepEqual` on `.Raw`)
and its not-after instant (used for expiry filtering). Time is a `Nat`
timestamp. -/

structure Certificate where
  raw : List Nat
  notAfter : Nat
deriving DecidableEq, Repr

/-- The value stored under the `"ca-bundle.crt"` key of the config map.
`empty` is the empty string; `certs l` is a well-formed PEM concatenation of
the (non-empty) certificate list `l`; `malformed` is a non-empty string that
`cert.ParseCertsPEM` rejects. -/
inductive Blob where
  | empty : Blob
  | certs : List Certificate → Blob
  | malformed : Blob
deriving DecidableEq, Repr

/-- Modelled from the spec: `crypto.EncodeCertificates` (library-go `pkg/crypto`,
not part of the provided sources) — "re-encode the deduplicated, non-expired
list into the bundle blob, byte-for-byte deterministic given the same ordered
certificate list (standard PEM concatenation in list order)". Encoding no
certificates yields the empty string. -/
def EncodeCertificates (l : List Certificate) : Blob :=
  if l.isEmpty then Blob.empty else Blob.certs l

/-- Modelled from the spec: `cert.ParseCertsPEM` together with the
`len(caBundle) > 0` guard in `manageCABundleConfigMap` — "decode the existing
bundle blob (if any) into an ordered list of certificates; a decode failure
is a hard error". The empty blob is never parsed (the guard skips it) and
yields the empty certificate list. -/
def parseCaBundle : Blob → Except Unit (List Certificate)
  | Blob.empty => .ok []
  | Blob.certs l => .ok l
  | Blob.malformed => .error ()

/-- Modelled from the spec: `crypto.FilterExpiredCerts` (library-go
`pkg/crypto`, not part of the provided sources) — "filter out every
certificate whose current-time validity window has expired", where the
output invariant is "not-after is strictly after the reconciliation
timestamp". A certificate is kept iff `now < notAfter`. -/
def FilterExpiredCerts (now : Nat) (certs : List Certificate) : List Certificate :=
  certs.filter (fun c => now < c.notAfter)

/-! ## Go maps as association lists

Go's `map[k]v` is modelled by an association list with unique keys;
`mapWrite` is `m[k] = v` (replace in place, append if absent) and
`mapRead` is `m[k]` on a `map[string]string` (missing key reads as the zero
value, here the empty blob). -/

def mapWrite {α β : Type} [DecidableEq α] : List (α × β) → α → β → List (α × β)
  | [], k, v => [(k, v)]
  | p :: rest, k, v => if p.1 = k then (k, v) :: rest else p :: mapWrite rest k v

def mapRead (m : List (String × Blob)) (k : String) : Blob :=
  (m.lookup k).getD Blob.empty

/-- Go semantic equality of two `map[string]string` values: same key set,
same value at every key. -/
def mapsEqual (a b : List (String × Blob)) : Bool :=
  ((a.map Prod.fst) ++ (b.map Prod.fst)).all fun k => a.lookup k = b.lookup k

/-! ## The config map object

`ObjectMeta` keeps the two fields the code reads (namespace, name) plus an
opaque `rest` field standing for every other metadata field, which the
bundle code never touches. `data == none` models a nil `Data` map. -/

structure ObjectMeta where
  namespace_ : String
  name : String
  rest : String
deriving DecidableEq, Repr

structure ConfigMap where
  meta : ObjectMeta
  data : Option (List (String × Blob))
deriving DecidableEq, Repr

def caBundleKey : String := "ca-bundle.crt"

def caBundleUpdateRequired : String := "CABundleUpdateRequired"

def notWatchingNamespace (ns : String) : String := "not watching namespace " ++ ns

/-! ## manageCABundleConfigMap

Direct translation of the Go function: ensure the data map exists, parse the
stored bundle, prepend the current signer, drop expired certificates,
deduplicate by raw bytes (first occurrence wins), re-encode and store. -/

/-- One step of the O(n²) duplicate-elimination loop of
`manageCABundleConfigMap`: append `c` to the accumulator unless a
certificate with identical raw bytes is already there. -/
def dedupStep (finalCertificates : List Certificate) (c : Certificate) : List Certificate :=
  if finalCertificates.any (fun f => f.raw = c.raw) then finalCertificates
  else finalCertificates ++ [c]

def dedupCerts (certificates : List Certificate) : List Certificate :=
  certificates.foldl dedupStep []

def manageCABundleConfigMap (caBundleConfigMap : ConfigMap) (currentSigner : Certificate)
    (now : Nat) : Except Unit ConfigMap :=
  let data := caBundleConfigMap.data.getD []
  let caBundle := mapRead data caBundleKey
  match parseCaBundle caBundle with
  | .error e => .error e
  | .ok existing =>
    let certificates := currentSigner :: existing
    let certificates := FilterExpiredCerts now certificates
    let finalCertificates := dedupCerts certificates
    let caBytes := EncodeCertificates finalCertificates
    .ok { caBundleConfigMap with data := some (mapWrite data caBundleKey caBytes) }

/-! ## Backing-store errors and the config-map client

`ensureConfigMapCABundle` talks to a lister (read) and a client
(update/create). Their outcomes are supplied as oracles so every control
path of the Go code is represented; the function additionally returns the
trace of store writes and event emissions it performed. -/

inductive StoreError where
  | notFound : StoreError
  | conflict : StoreError
  | other : String → StoreError
deriving DecidableEq, Repr

/-- Go side apierrors.IsNotFound check. -/
def IsNotFound : StoreError → Bool
  | .notFound => true
  | _ => false

/-- Outcome of `Lister.ConfigMaps(ns).Get(name)`: the object, or an error
(`failed .notFound` is the not-found error). -/
inductive GetResult where
  | found : ConfigMap → GetResult
  | failed : StoreError → GetResult
deriving DecidableEq, Repr

/-- Outcome of a client `Update`/`Create` call. -/
inductive WriteResult where
  | ok : ConfigMap → WriteResult
  | err : StoreError → WriteResult
deriving DecidableEq, Repr

/-- Oracle for the config-map client's write verbs. -/
structure ConfigMapClient where
  update : ConfigMap → WriteResult
  create : ConfigMap → WriteResult

/-- One observable action of `ensureConfigMapCABundle`: a store write or an
event-recorder emission. -/
inductive CMOp where
  | update : ConfigMap → CMOp
  | create : ConfigMap → CMOp
  | event : String → CMOp
deriving DecidableEq, Repr

inductive EnsureError where
  | getError : StoreError → EnsureError
  | parseError : EnsureError
  | writeError : StoreError → EnsureError
deriving DecidableEq, Repr

structure CABundleRotation where
  namespace_ : String
  name : String
deriving DecidableEq, Repr

/-- The `originalCABundleConfigMap == nil || originalCABundleConfigMap.Data == nil
|| !equality.Semantic.DeepEqual(originalCABundleConfigMap.Data, caBundleConfigMap.Data)`
condition deciding whether to write back. -/
def writeNeeded (original : Option ConfigMap) (updated : ConfigMap) : Bool :=
  match original with
  | none => true
  | some o =>
    match o.data, updated.data with
    | none, _ => true
    | some _, none => true
    | some od, some nd => !(mapsEqual od nd)

/-- The tail of `ensureConfigMapCABundle`, from the `manageCABundleConfigMap`
call on: `original` is the lister's object (`none` when not found) and
`working` the deep copy (or fresh object) handed to
`manageCABundleConfigMap`. -/
def ensureWrite (original : Option ConfigMap) (working : ConfigMap)
    (client : ConfigMapClient) (signingCert : Certificate) (now : Nat) :
    Except EnsureError Unit × List CMOp :=
  match manageCABundleConfigMap working signingCert now with
  | .error _ => (.error .parseError, [])
  | .ok updated =>
    if writeNeeded original updated then
      let opsHead : List CMOp := [.event caBundleUpdateRequired, .update updated]
      match client.update updated with
      | .ok _ => (.ok (), opsHead)
      | .err e =>
        if IsNotFound e then
          match client.create updated with
          | .ok _ => (.ok (), opsHead ++ [.create updated])
          | .err e2 => (.error (.writeError e2), opsHead ++ [.create updated])
        else (.error (.writeError e), opsHead)
    else (.ok (), [])

/-- Direct translation of `CABundleRotation.ensureConfigMapCABundle`: read the
stored bundle (absence means start from a fresh empty object), run
`manageCABundleConfigMap`, and if the resulting data differs (or the object
or its data map was absent) emit the `CABundleUpdateRequired` event and write
back — update first, retried as a create when the update fails not-found. -/
def ensureConfigMapCABundle (c : CABundleRotation) (getRes : GetResult)
    (client : ConfigMapClient) (signingCert : Certificate) (now : Nat) :
    Except EnsureError Unit × List CMOp :=
  match getRes with
  | .failed e =>
    if !(IsNotFound e) then (.error (.getError e), [])
    else
      -- create an empty one
      let fresh : ConfigMap := ⟨⟨c.namespace_, c.name, ""⟩, none⟩
      ensureWrite none fresh client signingCert now
  | .found original => ensureWrite (some original) original client signingCert now

/-! ## The resource-sync controller

`ResourceSyncController` keeps two rule tables (Go maps from destination
location to source location), the watched-namespace set and a work queue;
the queue is modelled by the count of `queue.Add` calls so that "no trigger
was scheduled" is statable. -/

structure ResourceLocation where
  namespace_ : String
  name : String
deriving DecidableEq, Repr

def emptyResourceLocation : ResourceLocation := ⟨"", ""⟩

abbrev SyncRules := List (ResourceLocation × ResourceLocation)

structure ResourceSyncController where
  configMapSyncRules : SyncRules
  secretSyncRules : SyncRules
  knownNamespaces : List String
  queueAdds : Nat
deriving DecidableEq, Repr

/-- The rule-table state built by `NewResourceSyncController`: both tables
empty, the watched namespaces fixed, nothing queued yet. -/
def newResourceSyncController (namespaces : List String) : ResourceSyncController :=
  ⟨[], [], namespaces, 0⟩

/-- Translation of `ResourceSyncController.SyncConfigMap`: validate both namespaces, then
store (overwrite) the rule and add the work-queue key. Returns the new state
and the error, if any (`none` on success). -/
def SyncConfigMap (c : ResourceSyncController) (destination source : ResourceLocation) :
    ResourceSyncController × Option String :=
  if !(c.knownNamespaces.contains destination.namespace_) then
    (c, some (notWatchingNamespace destination.namespace_))
  else if source != emptyResourceLocation && !(c.knownNamespaces.contains source.namespace_) then
    (c, some (notWatchingNamespace source.namespace_))
  else
    ({ c with configMapSyncRules := mapWrite c.configMapSyncRules destination source,
              queueAdds := c.queueAdds + 1 }, none)

/-- Translation of `ResourceSyncController.SyncSecret`: same shape as `SyncConfigMap` over
the secret rule table. -/
def SyncSecret (c : ResourceSyncController) (destination source : ResourceLocation) :
    ResourceSyncController × Option String :=
  if !(c.knownNamespaces.contains destination.namespace_) then
    (c, some (notWatchingNamespace destination.namespace_))
  else if source != emptyResourceLocation && !(c.knownNamespaces.contains source.namespace_) then
    (c, some (notWatchingNamespace source.namespace_))
  else
    ({ c with secretSyncRules := mapWrite c.secretSyncRules destination source,
              queueAdds := c.queueAdds + 1 }, none)

/-! ## The reconciliation pass -/

inductive ManagementState where
  | Managed : ManagementState
  | Unmanaged : ManagementState
  | Removed : ManagementState
  | Force : ManagementState
deriving DecidableEq, Repr

structure OperatorSpec where
  managementState : ManagementState
deriving DecidableEq, Repr

inductive ConditionStatus where
  | ConditionTrue : ConditionStatus
  | ConditionFalse : ConditionStatus
deriving DecidableEq, Repr

structure OperatorCondition where
  type_ : String
  status : ConditionStatus
  reason : String
  message : String
deriving DecidableEq, Repr

def operatorStatusResourceSyncControllerFailing : String := "ResourceSyncControllerFailing"

def errString : StoreError → String
  | .notFound => "not found"
  | .conflict => "conflict"
  | .other msg => msg

/-- Modelled from the spec: `common.NewMultiLineAggregate` (library-go
`staticpod/controller/common`, not part of the provided sources) — the
"aggregated multi-line message" built from the collected per-rule errors. -/
def multiLineSep : String := "\n"

def NewMultiLineAggregate (errs : List String) : String :=
  String.intercalate multiLineSep errs

/-- Oracle for the backing store used by the pass: deletes (whose error is
inspected with `IsNotFound`), the `resourceapply.SyncConfigMap`/`SyncSecret`
copy operations, and `common.UpdateStatus`. `none` means success. -/
structure SyncBackend where
  deleteConfigMap : ResourceLocation → Option StoreError
  syncConfigMap : ResourceLocation → ResourceLocation → Option StoreError
  deleteSecret : ResourceLocation → Option StoreError
  syncSecret : ResourceLocation → ResourceLocation → Option StoreError
  updateStatus : OperatorCondition → Option StoreError

/-- One observable action of a reconciliation pass. `syncConfigMap` and
`syncSecret` carry (source, destination); `setCondition` is the
`common.UpdateStatus` call. -/
inductive SyncOp where
  | deleteConfigMap : ResourceLocation → SyncOp
  | syncConfigMap : ResourceLocation → ResourceLocation → SyncOp
  | deleteSecret : ResourceLocation → SyncOp
  | syncSecret : ResourceLocation → ResourceLocation → SyncOp
  | setCondition : OperatorCondition → SyncOp
deriving DecidableEq, Repr

/-- Body of the `for destination, source := range c.configMapSyncRules` loop:
delete when the source is the empty sentinel (not-found is not an error),
otherwise copy source to destination; any error is appended to the collected
list and the loop continues. -/
def syncConfigMapRuleStep (b : SyncBackend) (acc : List String × List SyncOp)
    (rule : ResourceLocation × ResourceLocation) : List String × List SyncOp :=
  let destination := rule.1
  let source := rule.2
  if source == emptyResourceLocation then
    let acc2 := (acc.1, acc.2 ++ [SyncOp.deleteConfigMap destination])
    match b.deleteConfigMap destination with
    | some e => if IsNotFound e then acc2 else (acc2.1 ++ [errString e], acc2.2)
    | none => acc2
  else
    let acc2 := (acc.1, acc.2 ++ [SyncOp.syncConfigMap source destination])
    match b.syncConfigMap source destination with
    | some e => (acc2.1 ++ [errString e], acc2.2)
    | none => acc2

/-- Body of the `for destination, source := range c.secretSyncRules` loop. -/
def syncSecretRuleStep (b : SyncBackend) (acc : List String × List SyncOp)
    (rule : ResourceLocation × ResourceLocation) : List String × List SyncOp :=
  let destination := rule.1
  let source := rule.2
  if source == emptyResourceLocation then
    let acc2 := (acc.1, acc.2 ++ [SyncOp.deleteSecret destination])
    match b.deleteSecret destination with
    | some e => if IsNotFound e then acc2 else (acc2.1 ++ [errString e], acc2.2)
    | none => acc2
  else
    let acc2 := (acc.1, acc.2 ++ [SyncOp.syncSecret source destination])
    match b.syncSecret source destination with
    | some e => (acc2.1 ++ [errString e], acc2.2)
    | none => acc2

/-- The two rule-replay loops of `ResourceSyncController.sync`, returning the
collected error messages and the trace of store operations. -/
def processRules (c : ResourceSyncController) (b : SyncBackend) :
    List String × List SyncOp :=
  let acc := c.configMapSyncRules.foldl (syncConfigMapRuleStep b) ([], [])
  c.secretSyncRules.foldl (syncSecretRuleStep b) acc

def failingCondition (errs : List String) : OperatorCondition :=
  ⟨operatorStatusResourceSyncControllerFailing, ConditionStatus.ConditionTrue, "Error",
    NewMultiLineAggregate errs⟩

def healthyCondition : OperatorCondition :=
  ⟨operatorStatusResourceSyncControllerFailing, ConditionStatus.ConditionFalse, "", ""⟩

inductive SyncError where
  | getError : StoreError → SyncError
  | statusUpdateError : StoreError → SyncError
deriving DecidableEq, Repr

/-- Direct translation of `ResourceSyncController.sync`: read the operator
spec (errors returned as-is), skip entirely when unmanaged or removed,
replay all rules collecting errors, then set the failing condition (with the
aggregated message) or the healthy one; only a status-update failure is
returned. -/
def sync (c : ResourceSyncController) (getSpec : Except StoreError OperatorSpec)
    (b : SyncBackend) : Option SyncError × List SyncOp :=
  match getSpec with
  | .error e => (some (.getError e), [])
  | .ok spec =>
    match spec.managementState with
    | .Unmanaged => (none, [])
    | .Removed => (none, [])
    | _ =>
      let res := processRules c b
      if res.1.length > 0 then
        let cond := failingCondition res.1
        match b.updateStatus cond with
        | some updateError =>
          (some (.statusUpdateError updateError), res.2 ++ [SyncOp.setCondition cond])
        | none => (none, res.2 ++ [SyncOp.setCondition cond])
      else
        let cond := healthyCondition
        match b.updateStatus cond with
        | some updateError =>
          (some (.statusUpdateError updateError), res.2 ++ [SyncOp.setCondition cond])
        | none => (none, res.2 ++ [SyncOp.setCondition cond])

/-! ## Observation and specification-side definitions -/

/-- The certificate list stored in a config map: the decoding of the blob
under the bundle key (an empty or absent entry decodes to the empty list). -/
def bundleCertList (cm : ConfigMap) : Except Unit (List Certificate) :=
  parseCaBundle (mapRead (cm.data.getD []) caBundleKey)

/-- Whether some certificate in `l` has raw DER bytes `r`. -/
def rawIn (r : List Nat) (l : List Certificate) : Bool :=
  l.any (fun c => c.raw = r)

/-- First-seen-order deduplication as the spec phrases it: keep each
certificate and drop every later certificate with the same raw bytes. -/
def firstSeenDedup : List Certificate → List Certificate
  | [] => []
  | c :: rest => c :: firstSeenDedup (rest.filter (fun d => d.raw ≠ c.raw))
termination_by l => l.length
decreasing_by
  simp only [List.length_cons]
  exact Nat.lt_succ_of_le (List.length_filter_le _ _)

/-- The store operation a config-map rule gives rise to. -/
def configMapRuleOp (destination source : ResourceLocation) : SyncOp :=
  if source == emptyResourceLocation then SyncOp.deleteConfigMap destination
  else SyncOp.syncConfigMap source destination

/-- The store operation a secret rule gives rise to. -/
def secretRuleOp (destination source : ResourceLocation) : SyncOp :=
  if source == emptyResourceLocation then SyncOp.deleteSecret destination
  else SyncOp.syncSecret source destination

/-- The error messages a single config-map rule contributes to the collected
error list: a delete error is ignored when it is not-found, a copy error is
always collected. -/
def cmRuleErrs (b : SyncBackend) (destination source : ResourceLocation) : List String :=
  if source == emptyResourceLocation then
    match b.deleteConfigMap destination with
    | some e => if IsNotFound e then [] else [errString e]
    | none => []
  else
    match b.syncConfigMap source destination with
    | some e => [errString e]
    | none => []

/-- The error messages a single secret rule contributes. -/
def secretRuleErrs (b : SyncBackend) (destination source : ResourceLocation) : List String :=
  if source == emptyResourceLocation then
    match b.deleteSecret destination with
    | some e => if IsNotFound e then [] else [errString e]
    | none => []
  else
    match b.syncSecret source destination with
    | some e => [errString e]
    | none => []

/-- The condition a non-skipped pass records: failing with the aggregated
message when any error was collected, healthy otherwise. -/
def syncCondition (c : ResourceSyncController) (b : SyncBackend) : OperatorCondition :=
  if (processRules c b).1.length > 0 then failingCondition (processRules c b).1
  else healthyCondition

/-! ## Registration sequences (for the rule-table invariant) -/

inductive RegistrationKind where
  | configMap : RegistrationKind
  | secret : RegistrationKind
deriving DecidableEq, Repr

structure Registration where
  kind : RegistrationKind
  destination : ResourceLocation
  source : ResourceLocation
deriving DecidableEq, Repr

/-- Apply one registration call to the controller, keeping the resulting
state (the returned error, if any, leaves the state unchanged). -/
def applyRegistration (c : ResourceSyncController) (r : Registration) :
    ResourceSyncController :=
  match r.kind with
  | .configMap => (SyncConfigMap c r.destination r.source).1
  | .secret => (SyncSecret c r.destination r.source).1

def applyRegistrations (c : ResourceSyncController) (rs : List Registration) :
    ResourceSyncController :=
  rs.foldl applyRegistration c

/-- Whether a registration passes the namespace validation of
`SyncConfigMap`/`SyncSecret` against the watched-namespace set. -/
def registrationAccepted (namespaces : List String) (r : Registration) : Bool :=
  namespaces.contains r.destination.namespace_ &&
    (r.source == emptyResourceLocation || namespaces.contains r.source.namespace_)

/-- Specification-side account of the rule tables: the source of the most
recent accepted registration of kind `k` for destination `d`, on top of a
prior value `init`. -/
def latestSource (namespaces : List String) (k : RegistrationKind)
    (d : ResourceLocation) (init : Option ResourceLocation)
    (rs : List Registration) : Option ResourceLocation :=
  rs.foldl
    (fun acc r =>
      if r.kind = k ∧ r.destination = d ∧ registrationAccepted namespaces r = true
      then some r.source else acc)
    init

/-! ## Association-list and codec lemmas -/

theorem lookup_mapWrite {α β : Type} [DecidableEq α] (m : List (α × β)) (k : α) (v : β)
    (k' : α) : (mapWrite m k v).lookup k' = if k' = k then some v else m.lookup k' := by
  induction m with
  | nil =>
    by_cases h : k' = k
    · have hb : (k' == k) = true := by simpa using h
      simp [mapWrite, List.lookup, hb, h]
    · have hb : (k' == k) = false := by simpa using h
      simp [mapWrite, List.lookup, hb, h]
  | cons p rest ih =>
    obtain ⟨a, b⟩ := p
    by_cases hak : a = k
    · subst hak
      by_cases h : k' = a
      · have hb : (k' == a) = true := by simpa using h
        simp [mapWrite, List.lookup, hb, h]
      · have hb : (k' == a) = false := by simpa using h
        simp [mapWrite, List.lookup, hb, h]
    · by_cases h : k' = a
      · subst h
        have hb : (k' == k') = true := by simp
        simp [mapWrite, hak, List.lookup, hb, Ne.symm hak]
      · have hb : (k' == a) = false := by simpa using h
        simp [mapWrite, hak, List.lookup, hb, ih]

theorem lookup_mapWrite_self {α β : Type} [DecidableEq α] (m : List (α × β)) (k : α)
    (v : β) : (mapWrite m k v).lookup k = some v := by
  simp [lookup_mapWrite]

theorem mapWrite_mapWrite_same {α β : Type} [DecidableEq α] (m : List (α × β)) (k : α)
    (v : β) : mapWrite (mapWrite m k v) k v = mapWrite m k v := by
  induction m with
  | nil => simp [mapWrite]
  | cons p rest ih =>
    obtain ⟨a, b⟩ := p
    by_cases hak : a = k
    · simp [mapWrite, hak]
    · simp [mapWrite, hak, ih]

theorem keys_mapWrite {α β : Type} [DecidableEq α] (m : List (α × β)) (k : α) (v : β) :
    (mapWrite m k v).map Prod.fst
      = if k ∈ m.map Prod.fst then m.map Prod.fst else m.map Prod.fst ++ [k] := by
  induction m with
  | nil => simp [mapWrite]
  | cons p rest ih =>
    obtain ⟨a, b⟩ := p
    by_cases hak : a = k
    · subst hak
      simp [mapWrite]
    · by_cases hk : k ∈ rest.map Prod.fst <;>
        simp [mapWrite, hak, ih, hk, Ne.symm hak]

theorem nodup_keys_mapWrite {α β : Type} [DecidableEq α] {m : List (α × β)} (k : α)
    (v : β) (h : (m.map Prod.fst).Nodup) : ((mapWrite m k v).map Prod.fst).Nodup := by
  rw [keys_mapWrite]
  by_cases hk : k ∈ m.map Prod.fst
  · simpa [hk] using h
  · rw [if_neg hk]
    exact h.append (List.nodup_singleton k)
      (by simpa [List.disjoint_singleton] using hk)

theorem mapsEqual_refl (a : List (String × Blob)) : mapsEqual a a = true := by
  simp [mapsEqual]

theorem parse_encode (l : List Certificate) :
    parseCaBundle (EncodeCertificates l) = .ok l := by
  cases l <;> simp [EncodeCertificates, parseCaBundle]

/-! ## Deduplication lemmas -/

theorem dedupStep_append (acc : List Certificate) (c : Certificate) :
    ∃ s, dedupStep acc c = acc ++ s := by
  unfold dedupStep
  split
  · exact ⟨[], by simp⟩
  · exact ⟨[c], rfl⟩

theorem dedupStep_mem {acc : List Certificate} {c x : Certificate}
    (h : x ∈ dedupStep acc c) : x ∈ acc ∨ x = c := by
  unfold dedupStep at h
  split at h
  · exact Or.inl h
  · rcases List.mem_append.1 h with h1 | h1
    · exact Or.inl h1
    · exact Or.inr (by simpa using h1)

theorem dedup_foldl_append (l : List Certificate) :
    ∀ acc, ∃ t, l.foldl dedupStep acc = acc ++ t := by
  induction l with
  | nil => exact fun acc => ⟨[], by simp⟩
  | cons c rest ih =>
    intro acc
    rcases dedupStep_append acc c with ⟨s, hs⟩
    rcases ih (dedupStep acc c) with ⟨t, ht⟩
    exact ⟨s ++ t, by rw [List.foldl_cons, ht, hs, List.append_assoc]⟩

theorem dedup_foldl_mem (l : List Certificate) :
    ∀ acc x, x ∈ l.foldl dedupStep acc → x ∈ acc ∨ x ∈ l := by
  induction l with
  | nil => intro acc x h; exact Or.inl (by simpa using h)
  | cons c rest ih =>
    intro acc x h
    rcases ih _ x h with h1 | h1
    · rcases dedupStep_mem h1 with h2 | h2
      · exact Or.inl h2
      · exact Or.inr (by simp [h2])
    · exact Or.inr (by simp [h1])

theorem dedupStep_pairwise {acc : List Certificate} {c : Certificate}
    (h : acc.Pairwise (fun a b => a.raw ≠ b.raw)) :
    (dedupStep acc c).Pairwise (fun a b => a.raw ≠ b.raw) := by
  unfold dedupStep
  split
  · exact h
  · next hna =>
    rw [List.pairwise_append]
    refine ⟨h, List.pairwise_singleton _ _, ?_⟩
    intro a ha b hb hr
    have hb2 : b = c := by simpa using hb
    subst hb2
    exact hna (List.any_eq_true.2 ⟨a, ha, by simp [hr]⟩)

theorem dedup_foldl_pairwise (l : List Certificate) :
    ∀ acc, acc.Pairwise (fun a b => a.raw ≠ b.raw) →
      (l.foldl dedupStep acc).Pairwise (fun a b => a.raw ≠ b.raw) := by
  induction l with
  | nil => intro acc h; simpa using h
  | cons c rest ih => intro acc h; exact ih _ (dedupStep_pairwise h)

theorem dedupStep_rawIn (acc : List Certificate) (c : Certificate) (r : List Nat) :
    rawIn r (dedupStep acc c) = (rawIn r acc || decide (c.raw = r)) := by
  unfold dedupStep
  split
  · next hin =>
    by_cases hcr : c.raw = r
    · rcases List.any_eq_true.1 hin with ⟨f, hf, hfr⟩
      have : rawIn r acc = true :=
        List.any_eq_true.2 ⟨f, hf, by simp at hfr ⊢; rw [hfr, hcr]⟩
      simp [this]
    · simp [hcr]
  · simp [rawIn, List.any_append]

theorem dedup_foldl_rawIn (l : List Certificate) :
    ∀ acc r, rawIn r (l.foldl dedupStep acc) = (rawIn r acc || rawIn r l) := by
  induction l with
  | nil => intro acc r; simp [rawIn]
  | cons c rest ih =>
    intro acc r
    rw [List.foldl_cons, ih, dedupStep_rawIn]
    simp [rawIn, List.any_cons, Bool.or_assoc]

theorem dedup_foldl_of_pairwise (l : List Certificate) :
    ∀ acc, (acc ++ l).Pairwise (fun a b => a.raw ≠ b.raw) →
      l.foldl dedupStep acc = acc ++ l := by
  induction l with
  | nil => intro acc _; simp
  | cons c rest ih =>
    intro acc h
    have hstep : dedupStep acc c = acc ++ [c] := by
      unfold dedupStep
      rw [if_neg]
      intro hany
      rcases List.any_eq_true.1 hany with ⟨f, hf, hfr⟩
      rw [List.pairwise_append] at h
      exact h.2.2 f hf c (by simp) (by simpa using hfr)
    have hre : (acc ++ [c]) ++ rest = acc ++ (c :: rest) := by simp
    rw [List.foldl_cons, hstep, ih (acc ++ [c]) (by rw [hre]; exact h), hre]

theorem countP_raw_eq_one {l : List Certificate} {r : List Nat}
    (hp : l.Pairwise (fun a b => a.raw ≠ b.raw)) (hm : rawIn r l = true) :
    l.countP (fun c => c.raw = r) = 1 := by
  induction l with
  | nil => simp [rawIn] at hm
  | cons c rest ih =>
    rw [List.pairwise_cons] at hp
    by_cases hcr : c.raw = r
    · have hzero : rest.countP (fun d => d.raw = r) = 0 := by
        rw [List.countP_eq_zero]
        intro a ha
        simp only [decide_eq_true_eq]
        intro he
        exact hp.1 a ha (by rw [he, hcr])
      simp [List.countP_cons, hcr, hzero]
    · have hm2 : rawIn r rest = true := by
        rcases List.any_eq_true.1 hm with ⟨f, hf, hfr⟩
        rcases List.mem_cons.1 hf with h1 | h1
        · exact absurd (by simpa using hfr) (h1 ▸ hcr)
        · exact List.any_eq_true.2 ⟨f, h1, hfr⟩
      simp [List.countP_cons, hcr, ih hp.2 hm2]

theorem dedup_foldl_eq_firstSeen (l : List Certificate) :
    ∀ acc, l.foldl dedupStep acc
      = acc ++ firstSeenDedup (l.filter (fun c => !(rawIn c.raw acc))) := by
  induction l with
  | nil => intro acc; simp [firstSeenDedup]
  | cons c rest ih =>
    intro acc
    by_cases hin : rawIn c.raw acc = true
    · have hstep : dedupStep acc c = acc := by
        unfold rawIn at hin
        simp [dedupStep, hin]
      have hfil : (c :: rest).filter (fun x => !(rawIn x.raw acc))
          = rest.filter (fun x => !(rawIn x.raw acc)) := by
        simp [List.filter_cons, hin]
      rw [List.foldl_cons, hstep, ih acc, hfil]
    · have hin2 : rawIn c.raw acc = false := by
        revert hin; cases rawIn c.raw acc <;> simp
      have hstep : dedupStep acc c = acc ++ [c] := by
        unfold rawIn at hin2
        simp [dedupStep, hin2]
      have hfc : (c :: rest).filter (fun x => !(rawIn x.raw acc))
          = c :: rest.filter (fun x => !(rawIn x.raw acc)) := by
        simp [List.filter_cons, hin2]
      rw [List.foldl_cons, hstep, ih (acc ++ [c]), hfc]
      have hF : firstSeenDedup (c :: rest.filter (fun x => !(rawIn x.raw acc)))
          = c :: firstSeenDedup ((rest.filter (fun x => !(rawIn x.raw acc))).filter
              (fun d => d.raw ≠ c.raw)) := by
        simp [firstSeenDedup]
      rw [hF, List.append_assoc, List.singleton_append]
      congr 2
      rw [List.filter_filter]
      congr 1
      apply List.filter_congr
      intro x _
      unfold rawIn
      simp [List.any_append, List.any_cons, Bool.not_or, eq_comm, Bool.and_comm]

theorem dedupCerts_eq_firstSeenDedup (l : List Certificate) :
    dedupCerts l = firstSeenDedup l := by
  have h := dedup_foldl_eq_firstSeen l []
  simpa [dedupCerts, rawIn] using h

/-! ## Lemmas about manageCABundleConfigMap -/

theorem manage_eq_of_parse (cm : ConfigMap) (signer : Certificate) (now : Nat)
    {existing : List Certificate} (h : bundleCertList cm = .ok existing) :
    manageCABundleConfigMap cm signer now
      = .ok ⟨cm.meta, some (mapWrite (cm.data.getD []) caBundleKey
          (EncodeCertificates (dedupCerts (FilterExpiredCerts now (signer :: existing)))))⟩ := by
  unfold bundleCertList at h
  simp only [manageCABundleConfigMap, h]

theorem manage_ok_inv {cm : ConfigMap} {signer : Certificate} {now : Nat} {cm' : ConfigMap}
    (h : manageCABundleConfigMap cm signer now = .ok cm') :
    ∃ existing, bundleCertList cm = .ok existing ∧
      cm' = ⟨cm.meta, some (mapWrite (cm.data.getD []) caBundleKey
        (EncodeCertificates (dedupCerts (FilterExpiredCerts now (signer :: existing)))))⟩ := by
  simp only [manageCABundleConfigMap] at h
  unfold bundleCertList
  cases hp : parseCaBundle (mapRead (cm.data.getD []) caBundleKey) with
  | error e => rw [hp] at h; exact absurd h (by simp)
  | ok existing =>
    rw [hp] at h
    simp only [Except.ok.injEq] at h
    exact ⟨existing, rfl, h.symm⟩

theorem bundleCertList_manage {cm : ConfigMap} {signer : Certificate} {now : Nat}
    {cm' : ConfigMap} {existing : List Certificate}
    (hp : bundleCertList cm = .ok existing)
    (h : manageCABundleConfigMap cm signer now = .ok cm') :
    bundleCertList cm'
      = .ok (dedupCerts (FilterExpiredCerts now (signer :: existing))) := by
  rcases manage_ok_inv h with ⟨existing2, hp2, hshape⟩
  rw [hp] at hp2
  cases hp2
  rw [hshape]
  unfold bundleCertList
  simp [mapRead, lookup_mapWrite_self, parse_encode]

theorem dedup_filter_stable (signer : Certificate) (now : Nat)
    (existing : List Certificate) :
    dedupCerts (FilterExpiredCerts now
        (signer :: dedupCerts (FilterExpiredCerts now (signer :: existing))))
      = dedupCerts (FilterExpiredCerts now (signer :: existing)) := by
  set out := dedupCerts (FilterExpiredCerts now (signer :: existing)) with hout
  have hmem : ∀ x ∈ out, now < x.notAfter := by
    intro x hx
    rcases dedup_foldl_mem (FilterExpiredCerts now (signer :: existing)) [] x hx with h | h
    · exact absurd h (by simp)
    · have := List.mem_filter.1 h
      simpa using this.2
  have hpw : out.Pairwise (fun a b => a.raw ≠ b.raw) :=
    dedup_foldl_pairwise _ [] List.Pairwise.nil
  have hfo : out.filter (fun c => now < c.notAfter) = out :=
    List.filter_eq_self.2 (fun a ha => by simpa using hmem a ha)
  by_cases hs : now < signer.notAfter
  · have hf1 : FilterExpiredCerts now (signer :: existing)
        = signer :: FilterExpiredCerts now existing := by
      simp [FilterExpiredCerts, List.filter_cons, hs]
    have hshape : ∃ t, out = signer :: t := by
      rw [hout, hf1]
      unfold dedupCerts
      rw [List.foldl_cons]
      have h0 : dedupStep [] signer = [signer] := by simp [dedupStep]
      rw [h0]
      rcases dedup_foldl_append (FilterExpiredCerts now existing) [signer] with ⟨t, ht⟩
      exact ⟨t, by rw [ht]; rfl⟩
    rcases hshape with ⟨t, ht⟩
    have hfilter2 : FilterExpiredCerts now (signer :: out) = signer :: out := by
      simp only [FilterExpiredCerts, List.filter_cons]
      simp only [FilterExpiredCerts] at hfo
      simp [hs, hfo]
    rw [hfilter2, ht]
    unfold dedupCerts
    rw [List.foldl_cons, List.foldl_cons]
    have h0 : dedupStep [] signer = [signer] := by simp [dedupStep]
    have h1 : dedupStep [signer] signer = [signer] := by simp [dedupStep]
    rw [h0, h1]
    have hpw2 : ([signer] ++ t).Pairwise (fun a b => a.raw ≠ b.raw) := by
      rw [List.singleton_append, ← ht]
      exact hpw
    have := dedup_foldl_of_pairwise t [signer] hpw2
    rw [this, List.singleton_append]
  · have hfilter2 : FilterExpiredCerts now (signer :: out) = out := by
      simp only [FilterExpiredCerts, List.filter_cons]
      simp only [FilterExpiredCerts] at hfo
      simp [hs, hfo]
    rw [hfilter2]
    exact dedup_foldl_of_pairwise out [] (by simpa using hpw)

theorem manage_idempotent {cm : ConfigMap} {signer : Certificate} {now : Nat}
    {cm₁ : ConfigMap} (h : manageCABundleConfigMap cm signer now = .ok cm₁) :
    manageCABundleConfigMap cm₁ signer now = .ok cm₁ := by
  rcases manage_ok_inv h with ⟨existing, hp, hshape⟩
  have hb1 : bundleCertList cm₁
      = .ok (dedupCerts (FilterExpiredCerts now (signer :: existing))) :=
    bundleCertList_manage hp h
  have h2 := manage_eq_of_parse cm₁ signer now hb1
  rw [h2]
  congr 1
  rw [hshape]
  simp [dedup_filter_stable, mapWrite_mapWrite_same]

/-! ## Lemmas about the reconciliation pass -/

theorem syncConfigMapRuleStep_eq (b : SyncBackend) (acc : List String × List SyncOp)
    (rule : ResourceLocation × ResourceLocation) :
    syncConfigMapRuleStep b acc rule
      = (acc.1 ++ cmRuleErrs b rule.1 rule.2, acc.2 ++ [configMapRuleOp rule.1 rule.2]) := by
  unfold syncConfigMapRuleStep cmRuleErrs configMapRuleOp
  by_cases h : (rule.2 == emptyResourceLocation) = true
  · simp only [h, if_true]
    cases hd : b.deleteConfigMap rule.1 with
    | none => simp
    | some e =>
      by_cases he : IsNotFound e = true
      · simp [he]
      · simp [he]
  · simp only [h, if_false, Bool.false_eq_true]
    cases hd : b.syncConfigMap rule.2 rule.1 with
    | none => simp [h]
    | some e => simp [h]

theorem syncSecretRuleStep_eq (b : SyncBackend) (acc : List String × List SyncOp)
    (rule : ResourceLocation × ResourceLocation) :
    syncSecretRuleStep b acc rule
      = (acc.1 ++ secretRuleErrs b rule.1 rule.2, acc.2 ++ [secretRuleOp rule.1 rule.2]) := by
  unfold syncSecretRuleStep secretRuleErrs secretRuleOp
  by_cases h : (rule.2 == emptyResourceLocation) = true
  · simp only [h, if_true]
    cases hd : b.deleteSecret rule.1 with
    | none => simp
    | some e =>
      by_cases he : IsNotFound e = true
      · simp [he]
      · simp [he]
  · simp only [h, if_false, Bool.false_eq_true]
    cases hd : b.syncSecret rule.2 rule.1 with
    | none => simp [h]
    | some e => simp [h]

theorem foldl_cmStep_eq (b : SyncBackend) (rules : SyncRules) :
    ∀ acc, rules.foldl (syncConfigMapRuleStep b) acc
      = (acc.1 ++ (rules.map (fun r => cmRuleErrs b r.1 r.2)).flatten,
         acc.2 ++ rules.map (fun r => configMapRuleOp r.1 r.2)) := by
  induction rules with
  | nil => intro acc; simp
  | cons r rest ih =>
    intro acc
    rw [List.foldl_cons, syncConfigMapRuleStep_eq, ih]
    simp

theorem foldl_secretStep_eq (b : SyncBackend) (rules : SyncRules) :
    ∀ acc, rules.foldl (syncSecretRuleStep b) acc
      = (acc.1 ++ (rules.map (fun r => secretRuleErrs b r.1 r.2)).flatten,
         acc.2 ++ rules.map (fun r => secretRuleOp r.1 r.2)) := by
  induction rules with
  | nil => intro acc; simp
  | cons r rest ih =>
    intro acc
    rw [List.foldl_cons, syncSecretRuleStep_eq, ih]
    simp

theorem processRules_eq (c : ResourceSyncController) (b : SyncBackend) :
    processRules c b
      = ((c.configMapSyncRules.map (fun r => cmRuleErrs b r.1 r.2)).flatten
           ++ (c.secretSyncRules.map (fun r => secretRuleErrs b r.1 r.2)).flatten,
         c.configMapSyncRules.map (fun r => configMapRuleOp r.1 r.2)
           ++ c.secretSyncRules.map (fun r => secretRuleOp r.1 r.2)) := by
  unfold processRules
  rw [foldl_cmStep_eq, foldl_secretStep_eq]
  simp

theorem sync_managed (c : ResourceSyncController) (b : SyncBackend) (spec : OperatorSpec)
    (h1 : spec.managementState ≠ ManagementState.Unmanaged)
    (h2 : spec.managementState ≠ ManagementState.Removed) :
    sync c (.ok spec) b
      = ((b.updateStatus (syncCondition c b)).map SyncError.statusUpdateError,
         (processRules c b).2 ++ [SyncOp.setCondition (syncCondition c b)]) := by
  obtain ⟨ms⟩ := spec
  cases ms with
  | Unmanaged => exact absurd rfl h1
  | Removed => exact absurd rfl h2
  | Managed =>
    unfold sync syncCondition
    by_cases hl : (processRules c b).1.length > 0
    · simp only [hl, if_true]
      cases b.updateStatus (failingCondition (processRules c b).1) <;> simp
    · simp only [hl, if_false]
      cases b.updateStatus healthyCondition <;> simp
  | Force =>
    unfold sync syncCondition
    by_cases hl : (processRules c b).1.length > 0
    · simp only [hl, if_true]
      cases b.updateStatus (failingCondition (processRules c b).1) <;> simp
    · simp only [hl, if_false]
      cases b.updateStatus healthyCondition <;> simp

/-! ## Claims about the trust-bundle maintainer -/

/-- C1: for every stored bundle and current signing certificate, the
certificate list `manageCABundleConfigMap` writes is the first-seen-order
raw-DER-byte deduplication of the non-expired certificates of the worklist
`signer :: existing`; each distinct certificate appears exactly once, no
certificate whose not-after is at or before the reconciliation timestamp
appears, and a non-expired signer is the first entry. -/
theorem claim_C1_bundle_contents (cm : ConfigMap) (signer : Certificate) (now : Nat)
    (existing : List Certificate) (cm' : ConfigMap)
    (hparse : bundleCertList cm = .ok existing)
    (hrun : manageCABundleConfigMap cm signer now = .ok cm') :
    bundleCertList cm' = .ok (dedupCerts (FilterExpiredCerts now (signer :: existing)))
    ∧ dedupCerts (FilterExpiredCerts now (signer :: existing))
        = firstSeenDedup (FilterExpiredCerts now (signer :: existing))
    ∧ (dedupCerts (FilterExpiredCerts now (signer :: existing))).Pairwise
        (fun a b => a.raw ≠ b.raw)
    ∧ (∀ c ∈ dedupCerts (FilterExpiredCerts now (signer :: existing)), now < c.notAfter)
    ∧ (∀ c ∈ dedupCerts (FilterExpiredCerts now (signer :: existing)),
        c ∈ signer :: existing)
    ∧ (∀ c ∈ FilterExpiredCerts now (signer :: existing),
        (dedupCerts (FilterExpiredCerts now (signer :: existing))).countP
          (fun d => d.raw = c.raw) = 1)
    ∧ (now < signer.notAfter →
        (dedupCerts (FilterExpiredCerts now (signer :: existing))).head? = some signer) := by
  refine ⟨bundleCertList_manage hparse hrun, dedupCerts_eq_firstSeenDedup _,
    dedup_foldl_pairwise _ [] List.Pairwise.nil, ?_, ?_, ?_, ?_⟩
  · intro c hc
    rcases dedup_foldl_mem (FilterExpiredCerts now (signer :: existing)) [] c hc with h | h
    · exact absurd h (by simp)
    · simpa using (List.mem_filter.1 h).2
  · intro c hc
    rcases dedup_foldl_mem (FilterExpiredCerts now (signer :: existing)) [] c hc with h | h
    · exact absurd h (by simp)
    · exact (List.mem_filter.1 h).1
  · intro c hc
    apply countP_raw_eq_one (dedup_foldl_pairwise _ [] List.Pairwise.nil)
    rw [dedup_foldl_rawIn]
    have : rawIn c.raw (FilterExpiredCerts now (signer :: existing)) = true :=
      List.any_eq_true.2 ⟨c, hc, by simp⟩
    simp [this]
  · intro hs
    have hf1 : FilterExpiredCerts now (signer :: existing)
        = signer :: FilterExpiredCerts now existing := by
      simp [FilterExpiredCerts, List.filter_cons, hs]
    rw [hf1]
    unfold dedupCerts
    rw [List.foldl_cons]
    have h0 : dedupStep [] signer = [signer] := by simp [dedupStep]
    rw [h0]
    rcases dedup_foldl_append (FilterExpiredCerts now existing) [signer] with ⟨t, ht⟩
    rw [ht]
    rfl

/-- Witness for C1 at a concrete bundle: stored certificates A (expires at
the reconciliation instant) and B (valid), new signer C (valid); the stored
result decodes to the deduplicated non-expired list. -/
theorem claim_C1_bundle_contents_witness :
    bundleCertList ⟨⟨"ns", "n", ""⟩,
        some [(caBundleKey, Blob.certs [⟨[1], 5⟩, ⟨[2], 100⟩])]⟩
      = .ok [⟨[1], 5⟩, ⟨[2], 100⟩]
    ∧ manageCABundleConfigMap
        ⟨⟨"ns", "n", ""⟩, some [(caBundleKey, Blob.certs [⟨[1], 5⟩, ⟨[2], 100⟩])]⟩
        ⟨[3], 100⟩ 5
      = .ok ⟨⟨"ns", "n", ""⟩, some [(caBundleKey, Blob.certs [⟨[3], 100⟩, ⟨[2], 100⟩])]⟩
    ∧ bundleCertList
        ⟨⟨"ns", "n", ""⟩, some [(caBundleKey, Blob.certs [⟨[3], 100⟩, ⟨[2], 100⟩])]⟩
      = .ok (dedupCerts (FilterExpiredCerts 5 (⟨[3], 100⟩ :: [⟨[1], 5⟩, ⟨[2], 100⟩]))) :=
  ⟨rfl, rfl,
    (claim_C1_bundle_contents
      ⟨⟨"ns", "n", ""⟩, some [(caBundleKey, Blob.certs [⟨[1], 5⟩, ⟨[2], 100⟩])]⟩
      ⟨[3], 100⟩ 5 [⟨[1], 5⟩, ⟨[2], 100⟩]
      ⟨⟨"ns", "n", ""⟩, some [(caBundleKey, Blob.certs [⟨[3], 100⟩, ⟨[2], 100⟩])]⟩
      rfl rfl).1⟩

/-- C6: running the bundle-ensure operation a second time with the same
signing certificate over the unchanged stored result of the first run
compares the rebuilt data equal and performs no write and emits no event. -/
theorem claim_C6_ensure_idempotent (c : CABundleRotation) (client : ConfigMapClient)
    (cm cm₁ : ConfigMap) (signer : Certificate) (now : Nat)
    (h : manageCABundleConfigMap cm signer now = .ok cm₁) :
    ensureConfigMapCABundle c (.found cm₁) client signer now = (.ok (), []) := by
  have hid := manage_idempotent h
  rcases manage_ok_inv h with ⟨existing, hp, hshape⟩
  have hw : writeNeeded (some cm₁) cm₁ = false := by
    rw [hshape]
    simp [writeNeeded, mapsEqual_refl]
  show ensureWrite (some cm₁) cm₁ client signer now = (.ok (), [])
  unfold ensureWrite
  rw [hid]
  simp [hw]

/-- Witness for C6: the first run on an absent data map stores the signer;
the second run writes nothing. -/
theorem claim_C6_ensure_idempotent_witness :
    manageCABundleConfigMap ⟨⟨"ns", "n", ""⟩, none⟩ ⟨[1], 10⟩ 0
      = .ok ⟨⟨"ns", "n", ""⟩, some [(caBundleKey, Blob.certs [⟨[1], 10⟩])]⟩
    ∧ ensureConfigMapCABundle ⟨"ns", "n"⟩
        (.found ⟨⟨"ns", "n", ""⟩, some [(caBundleKey, Blob.certs [⟨[1], 10⟩])]⟩)
        ⟨fun x => WriteResult.ok x, fun x => WriteResult.ok x⟩ ⟨[1], 10⟩ 0
      = (.ok (), []) :=
  ⟨rfl,
    claim_C6_ensure_idempotent ⟨"ns", "n"⟩
      ⟨fun x => WriteResult.ok x, fun x => WriteResult.ok x⟩
      ⟨⟨"ns", "n", ""⟩, none⟩
      ⟨⟨"ns", "n", ""⟩, some [(caBundleKey, Blob.certs [⟨[1], 10⟩])]⟩
      ⟨[1], 10⟩ 0 rfl⟩

/-- C8: a non-empty stored blob that fails to decode aborts the run with the
parse error; no event is emitted and no write is attempted, so the stored
bundle is left as it was. -/
theorem claim_C8_decode_error_aborts (c : CABundleRotation) (client : ConfigMapClient)
    (cm : ConfigMap) (signer : Certificate) (now : Nat)
    (h : mapRead (cm.data.getD []) caBundleKey = Blob.malformed) :
    ensureConfigMapCABundle c (.found cm) client signer now
      = (.error EnsureError.parseError, []) := by
  have hm : manageCABundleConfigMap cm signer now = .error () := by
    simp only [manageCABundleConfigMap, h, parseCaBundle]
  show ensureWrite (some cm) cm client signer now = (.error EnsureError.parseError, [])
  unfold ensureWrite
  rw [hm]

/-- Witness for C8 at a concrete malformed stored blob. -/
theorem claim_C8_decode_error_aborts_witness :
    mapRead ((some [(caBundleKey, Blob.malformed)] : Option (List (String × Blob))).getD [])
        caBundleKey = Blob.malformed
    ∧ ensureConfigMapCABundle ⟨"ns", "n"⟩
        (.found ⟨⟨"ns", "n", ""⟩, some [(caBundleKey, Blob.malformed)]⟩)
        ⟨fun x => WriteResult.ok x, fun x => WriteResult.ok x⟩ ⟨[1], 10⟩ 0
      = (.error EnsureError.parseError, []) :=
  ⟨by decide,
    claim_C8_decode_error_aborts ⟨"ns", "n"⟩ _
      ⟨⟨"ns", "n", ""⟩, some [(caBundleKey, Blob.malformed)]⟩ ⟨[1], 10⟩ 0 (by decide)⟩

/-- C10: `manageCABundleConfigMap` touches only the bundle key: a nil data
map is replaced by a fresh one-entry map rather than failing, and on every
successful run the object metadata and every other data key are unchanged. -/
theorem claim_C10_manage_frame (cm : ConfigMap) (signer : Certificate) (now : Nat) :
    (cm.data = none →
      manageCABundleConfigMap cm signer now
        = .ok ⟨cm.meta, some [(caBundleKey,
            EncodeCertificates (dedupCerts (FilterExpiredCerts now [signer])))]⟩)
    ∧ (∀ cm', manageCABundleConfigMap cm signer now = .ok cm' →
        cm'.meta = cm.meta
        ∧ (∀ k, k ≠ caBundleKey →
            (cm'.data.getD []).lookup k = (cm.data.getD []).lookup k)) := by
  constructor
  · intro hnil
    have hparse : bundleCertList cm = .ok [] := by
      unfold bundleCertList
      simp [hnil, mapRead, parseCaBundle, List.lookup]
    have h := manage_eq_of_parse cm signer now hparse
    rw [h, hnil]
    simp [mapWrite]
  · intro cm' h
    rcases manage_ok_inv h with ⟨existing, hp, hshape⟩
    constructor
    · rw [hshape]
    · intro k hk
      rw [hshape]
      simp [lookup_mapWrite, hk]

/-- Witness for C10: a nil data map is replaced by the fresh single-entry
map, and an unrelated key survives a run untouched. -/
theorem claim_C10_manage_frame_witness :
    ((⟨⟨"ns", "n", ""⟩, none⟩ : ConfigMap).data = none
      → manageCABundleConfigMap ⟨⟨"ns", "n", ""⟩, none⟩ ⟨[1], 10⟩ 0
          = .ok ⟨(⟨⟨"ns", "n", ""⟩, none⟩ : ConfigMap).meta, some [(caBundleKey,
              EncodeCertificates (dedupCerts (FilterExpiredCerts 0 [⟨[1], 10⟩])))]⟩)
    ∧ (∀ cm', manageCABundleConfigMap ⟨⟨"ns", "n", ""⟩, none⟩ ⟨[1], 10⟩ 0 = .ok cm' →
        cm'.meta = (⟨⟨"ns", "n", ""⟩, none⟩ : ConfigMap).meta
        ∧ (∀ k, k ≠ caBundleKey →
            (cm'.data.getD []).lookup k
              = ((⟨⟨"ns", "n", ""⟩, none⟩ : ConfigMap).data.getD []).lookup k)) :=
  claim_C10_manage_frame ⟨⟨"ns", "n", ""⟩, none⟩ ⟨[1], 10⟩ 0

/-- C7 counterexample: a write that fails with a version-conflict error
(the object concurrently recreated) is not retried with the opposite verb —
the trace shows the single update attempt, no create, and the error of that
single attempt returned — contradicting "retried exactly once using the
opposite verb (update retried as create, and create retried as update), and
if both attempts fail the error is returned". -/
theorem claim_C7_counterexample :
    ensureConfigMapCABundle ⟨"ns", "n"⟩ (.found ⟨⟨"ns", "n", ""⟩, none⟩)
        ⟨fun _ => WriteResult.err StoreError.conflict, fun x => WriteResult.ok x⟩
        ⟨[1], 10⟩ 0
      = (.error (EnsureError.writeError StoreError.conflict),
         [CMOp.event caBundleUpdateRequired,
          CMOp.update ⟨⟨"ns", "n", ""⟩, some [(caBundleKey, Blob.certs [⟨[1], 10⟩])]⟩]) :=
  rfl

/-- C7 (amended): the write-back always attempts the update first; only a
not-found failure of the update is retried, exactly once, as a create (other
update errors, conflicts included, are returned without retry, and a create
is never a first attempt nor retried); when the update fails not-found and
the retry create also fails, the create error is returned. -/
theorem claim_C7_write_retry (c : CABundleRotation) (cm updated : ConfigMap)
    (client : ConfigMapClient) (signer : Certificate) (now : Nat)
    (hm : manageCABundleConfigMap cm signer now = .ok updated)
    (hw : writeNeeded (some cm) updated = true) :
    (∀ r, client.update updated = .ok r →
        ensureConfigMapCABundle c (.found cm) client signer now
          = (.ok (), [CMOp.event caBundleUpdateRequired, CMOp.update updated]))
    ∧ (∀ e, client.update updated = .err e → IsNotFound e = false →
        ensureConfigMapCABundle c (.found cm) client signer now
          = (.error (.writeError e),
             [CMOp.event caBundleUpdateRequired, CMOp.update updated]))
    ∧ (∀ r, client.update updated = .err .notFound → client.create updated = .ok r →
        ensureConfigMapCABundle c (.found cm) client signer now
          = (.ok (), [CMOp.event caBundleUpdateRequired, CMOp.update updated,
                      CMOp.create updated]))
    ∧ (∀ e2, client.update updated = .err .notFound → client.create updated = .err e2 →
        ensureConfigMapCABundle c (.found cm) client signer now
          = (.error (.writeError e2),
             [CMOp.event caBundleUpdateRequired, CMOp.update updated,
              CMOp.create updated])) := by
  have hbase : ensureConfigMapCABundle c (.found cm) client signer now
      = ensureWrite (some cm) cm client signer now := rfl
  refine ⟨?_, ?_, ?_, ?_⟩
  · intro r hu
    rw [hbase]
    unfold ensureWrite
    rw [hm]
    simp [hw, hu]
  · intro e hu hnf
    rw [hbase]
    unfold ensureWrite
    rw [hm]
    simp [hw, hu, hnf]
  · intro r hu hc
    rw [hbase]
    unfold ensureWrite
    rw [hm]
    simp [hw, hu, hc, IsNotFound]
  · intro e2 hu hc
    rw [hbase]
    unfold ensureWrite
    rw [hm]
    simp [hw, hu, hc, IsNotFound]

/-- Witness for C7 (amended): an update failing not-found is retried as a
create, whose failure is returned. -/
theorem claim_C7_write_retry_witness :
    manageCABundleConfigMap ⟨⟨"ns", "n", ""⟩, none⟩ ⟨[1], 10⟩ 0
      = .ok ⟨⟨"ns", "n", ""⟩, some [(caBundleKey, Blob.certs [⟨[1], 10⟩])]⟩
    ∧ writeNeeded (some ⟨⟨"ns", "n", ""⟩, none⟩)
        ⟨⟨"ns", "n", ""⟩, some [(caBundleKey, Blob.certs [⟨[1], 10⟩])]⟩ = true
    ∧ ensureConfigMapCABundle ⟨"ns", "n"⟩ (.found ⟨⟨"ns", "n", ""⟩, none⟩)
        ⟨fun _ => WriteResult.err StoreError.notFound,
         fun _ => WriteResult.err StoreError.conflict⟩ ⟨[1], 10⟩ 0
      = (.error (.writeError StoreError.conflict),
         [CMOp.event caBundleUpdateRequired,
          CMOp.update ⟨⟨"ns", "n", ""⟩, some [(caBundleKey, Blob.certs [⟨[1], 10⟩])]⟩,
          CMOp.create ⟨⟨"ns", "n", ""⟩, some [(caBundleKey, Blob.certs [⟨[1], 10⟩])]⟩]) :=
  ⟨rfl, by decide,
    (claim_C7_write_retry ⟨"ns", "n"⟩ ⟨⟨"ns", "n", ""⟩, none⟩
      ⟨⟨"ns", "n", ""⟩, some [(caBundleKey, Blob.certs [⟨[1], 10⟩])]⟩
      ⟨fun _ => WriteResult.err StoreError.notFound,
       fun _ => WriteResult.err StoreError.conflict⟩
      ⟨[1], 10⟩ 0 rfl (by decide)).2.2.2 StoreError.conflict rfl rfl⟩

/-! ## Lemmas about registration -/

theorem SyncConfigMap_fst (c : ResourceSyncController) (d s : ResourceLocation) :
    (SyncConfigMap c d s).1
      = if registrationAccepted c.knownNamespaces ⟨RegistrationKind.configMap, d, s⟩
        then { c with configMapSyncRules := mapWrite c.configMapSyncRules d s,
                      queueAdds := c.queueAdds + 1 }
        else c := by
  unfold SyncConfigMap registrationAccepted
  by_cases hA : d.namespace_ ∈ c.knownNamespaces
  · by_cases hE : s = emptyResourceLocation
    · simp [hA, hE]
    · by_cases hB : s.namespace_ ∈ c.knownNamespaces
      · simp [hA, hE, hB]
      · simp [hA, hE, hB]
  · simp [hA]

theorem SyncSecret_fst (c : ResourceSyncController) (d s : ResourceLocation) :
    (SyncSecret c d s).1
      = if registrationAccepted c.knownNamespaces ⟨RegistrationKind.secret, d, s⟩
        then { c with secretSyncRules := mapWrite c.secretSyncRules d s,
                      queueAdds := c.queueAdds + 1 }
        else c := by
  unfold SyncSecret registrationAccepted
  by_cases hA : d.namespace_ ∈ c.knownNamespaces
  · by_cases hE : s = emptyResourceLocation
    · simp [hA, hE]
    · by_cases hB : s.namespace_ ∈ c.knownNamespaces
      · simp [hA, hE, hB]
      · simp [hA, hE, hB]
  · simp [hA]

/-! ## Claims about the sync engine -/

/-- C4: a registration whose destination namespace, or whose
non-empty-sentinel source namespace, is not watched fails synchronously and
changes nothing (no rule change, no queued trigger); otherwise it stores the
rule and queues a trigger. -/
theorem claim_C4_registration_validation (c : ResourceSyncController)
    (d s : ResourceLocation) :
    ((d.namespace_ ∉ c.knownNamespaces
        ∨ (s ≠ emptyResourceLocation ∧ s.namespace_ ∉ c.knownNamespaces)) →
      (SyncConfigMap c d s).1 = c ∧ ((SyncConfigMap c d s).2).isSome = true
      ∧ (SyncSecret c d s).1 = c ∧ ((SyncSecret c d s).2).isSome = true)
    ∧ (¬ (d.namespace_ ∉ c.knownNamespaces
        ∨ (s ≠ emptyResourceLocation ∧ s.namespace_ ∉ c.knownNamespaces)) →
      SyncConfigMap c d s
        = ({ c with configMapSyncRules := mapWrite c.configMapSyncRules d s,
                    queueAdds := c.queueAdds + 1 }, none)
      ∧ SyncSecret c d s
        = ({ c with secretSyncRules := mapWrite c.secretSyncRules d s,
                    queueAdds := c.queueAdds + 1 }, none)) := by
  by_cases hA : d.namespace_ ∈ c.knownNamespaces
  · by_cases hE : s = emptyResourceLocation
    · constructor
      · rintro (hbad | ⟨hne, _⟩)
        · exact absurd hA hbad
        · exact absurd hE hne
      · intro _
        constructor <;> simp [SyncConfigMap, SyncSecret, hA, hE]
    · by_cases hB : s.namespace_ ∈ c.knownNamespaces
      · constructor
        · rintro (hbad | ⟨_, hBf⟩)
          · exact absurd hA hbad
          · exact absurd hB hBf
        · intro _
          constructor <;> simp [SyncConfigMap, SyncSecret, hA, hE, hB]
      · constructor
        · intro _
          refine ⟨?_, ?_, ?_, ?_⟩ <;> simp [SyncConfigMap, SyncSecret, hA, hE, hB]
        · intro hgood
          exact absurd (Or.inr ⟨hE, hB⟩) hgood
  · constructor
    · intro _
      refine ⟨?_, ?_, ?_, ?_⟩ <;> simp [SyncConfigMap, SyncSecret, hA]
    · intro hgood
      exact absurd (Or.inl hA) hgood

/-- Witness for C4: with watched namespace set {ns}, registering a
destination in an unwatched namespace fails and changes nothing. -/
theorem claim_C4_registration_validation_witness :
    ((⟨"bad", "n"⟩ : ResourceLocation).namespace_
        ∉ (⟨[], [], ["ns"], 0⟩ : ResourceSyncController).knownNamespaces
      ∨ ((⟨"ns", "src"⟩ : ResourceLocation) ≠ emptyResourceLocation
        ∧ (⟨"ns", "src"⟩ : ResourceLocation).namespace_
            ∉ (⟨[], [], ["ns"], 0⟩ : ResourceSyncController).knownNamespaces))
    ∧ (SyncConfigMap ⟨[], [], ["ns"], 0⟩ ⟨"bad", "n"⟩ ⟨"ns", "src"⟩).1
        = (⟨[], [], ["ns"], 0⟩ : ResourceSyncController)
    ∧ ((SyncConfigMap ⟨[], [], ["ns"], 0⟩ ⟨"bad", "n"⟩ ⟨"ns", "src"⟩).2).isSome = true
    ∧ (SyncSecret ⟨[], [], ["ns"], 0⟩ ⟨"bad", "n"⟩ ⟨"ns", "src"⟩).1
        = (⟨[], [], ["ns"], 0⟩ : ResourceSyncController)
    ∧ ((SyncSecret ⟨[], [], ["ns"], 0⟩ ⟨"bad", "n"⟩ ⟨"ns", "src"⟩).2).isSome = true :=
  ⟨Or.inl (by decide),
    (claim_C4_registration_validation ⟨[], [], ["ns"], 0⟩ ⟨"bad", "n"⟩ ⟨"ns", "src"⟩).1
      (Or.inl (by decide))⟩

/-- C5: a pass that reads the Unmanaged (or Removed) management state
returns success immediately, with no store operation and no condition
update. -/
theorem claim_C5_unmanaged_skip (c : ResourceSyncController) (b : SyncBackend)
    (spec : OperatorSpec)
    (h : spec.managementState = ManagementState.Unmanaged
       ∨ spec.managementState = ManagementState.Removed) :
    sync c (.ok spec) b = (none, []) := by
  rcases h with h | h <;> simp [sync, h]

/-- Witness for C5 at a concrete controller with rules and an unmanaged
spec. -/
theorem claim_C5_unmanaged_skip_witness :
    ((⟨ManagementState.Unmanaged⟩ : OperatorSpec).managementState
        = ManagementState.Unmanaged
      ∨ (⟨ManagementState.Unmanaged⟩ : OperatorSpec).managementState
        = ManagementState.Removed)
    ∧ sync ⟨[(⟨"ns", "a"⟩, ⟨"ns", "b"⟩)], [(⟨"ns", "c"⟩, emptyResourceLocation)], ["ns"], 0⟩
        (.ok ⟨ManagementState.Unmanaged⟩)
        ⟨fun _ => none, fun _ _ => none, fun _ => none, fun _ _ => none, fun _ => none⟩
      = (none, []) :=
  ⟨Or.inl rfl,
    claim_C5_unmanaged_skip
      ⟨[(⟨"ns", "a"⟩, ⟨"ns", "b"⟩)], [(⟨"ns", "c"⟩, emptyResourceLocation)], ["ns"], 0⟩
      ⟨fun _ => none, fun _ _ => none, fun _ => none, fun _ _ => none, fun _ => none⟩
      ⟨ManagementState.Unmanaged⟩ (Or.inl rfl)⟩

/-- C2: a non-skipped pass processes every rule of both tables (collecting
errors without aborting), then records exactly one condition — failing with
the aggregated multi-line message when any error was collected, healthy
otherwise — and returns to the queue only the status-update error, if any. -/
theorem claim_C2_error_aggregation (c : ResourceSyncController) (b : SyncBackend)
    (spec : OperatorSpec)
    (h1 : spec.managementState ≠ ManagementState.Unmanaged)
    (h2 : spec.managementState ≠ ManagementState.Removed) :
    sync c (.ok spec) b
      = ((b.updateStatus (syncCondition c b)).map SyncError.statusUpdateError,
         (processRules c b).2 ++ [SyncOp.setCondition (syncCondition c b)])
    ∧ (∀ d s, (d, s) ∈ c.configMapSyncRules →
        configMapRuleOp d s ∈ (processRules c b).2)
    ∧ (∀ d s, (d, s) ∈ c.secretSyncRules →
        secretRuleOp d s ∈ (processRules c b).2)
    ∧ ((processRules c b).1 ≠ [] →
        syncCondition c b = failingCondition (processRules c b).1
        ∧ (syncCondition c b).status = ConditionStatus.ConditionTrue
        ∧ (syncCondition c b).message = NewMultiLineAggregate (processRules c b).1)
    ∧ ((processRules c b).1 = [] → syncCondition c b = healthyCondition) := by
  refine ⟨sync_managed c b spec h1 h2, ?_, ?_, ?_, ?_⟩
  · intro d s hmem
    simp only [processRules_eq]
    exact List.mem_append_left _ (List.mem_map.2 ⟨(d, s), hmem, rfl⟩)
  · intro d s hmem
    simp only [processRules_eq]
    exact List.mem_append_right _ (List.mem_map.2 ⟨(d, s), hmem, rfl⟩)
  · intro hne
    have hl : (processRules c b).1.length > 0 := List.length_pos.2 hne
    unfold syncCondition
    rw [if_pos hl]
    exact ⟨rfl, rfl, rfl⟩
  · intro he
    unfold syncCondition
    rw [he]
    simp

/-- Witness for C2: one config-map copy rule whose copy fails and one secret
delete rule that succeeds; the pass still records the condition from the
aggregated error and returns the status-update outcome. -/
theorem claim_C2_error_aggregation_witness :
    ((⟨ManagementState.Managed⟩ : OperatorSpec).managementState
        ≠ ManagementState.Unmanaged)
    ∧ ((⟨ManagementState.Managed⟩ : OperatorSpec).managementState
        ≠ ManagementState.Removed)
    ∧ sync ⟨[(⟨"ns", "a"⟩, ⟨"ns", "as"⟩)], [(⟨"ns", "b"⟩, emptyResourceLocation)], ["ns"], 0⟩
        (.ok ⟨ManagementState.Managed⟩)
        ⟨fun _ => none, fun _ _ => some StoreError.conflict,
         fun _ => none, fun _ _ => none, fun _ => none⟩
      = ((Option.map SyncError.statusUpdateError
            ((⟨fun _ => none, fun _ _ => some StoreError.conflict,
               fun _ => none, fun _ _ => none, fun _ => none⟩ : SyncBackend).updateStatus
              (syncCondition
                ⟨[(⟨"ns", "a"⟩, ⟨"ns", "as"⟩)],
                 [(⟨"ns", "b"⟩, emptyResourceLocation)], ["ns"], 0⟩
                ⟨fun _ => none, fun _ _ => some StoreError.conflict,
                 fun _ => none, fun _ _ => none, fun _ => none⟩))),
         (processRules
            ⟨[(⟨"ns", "a"⟩, ⟨"ns", "as"⟩)],
             [(⟨"ns", "b"⟩, emptyResourceLocation)], ["ns"], 0⟩
            ⟨fun _ => none, fun _ _ => some StoreError.conflict,
             fun _ => none, fun _ _ => none, fun _ => none⟩).2
           ++ [SyncOp.setCondition
                (syncCondition
                  ⟨[(⟨"ns", "a"⟩, ⟨"ns", "as"⟩)],
                   [(⟨"ns", "b"⟩, emptyResourceLocation)], ["ns"], 0⟩
                  ⟨fun _ => none, fun _ _ => some StoreError.conflict,
                   fun _ => none, fun _ _ => none, fun _ => none⟩)]) :=
  ⟨by decide, by decide,
    (claim_C2_error_aggregation
      ⟨[(⟨"ns", "a"⟩, ⟨"ns", "as"⟩)], [(⟨"ns", "b"⟩, emptyResourceLocation)], ["ns"], 0⟩
      ⟨fun _ => none, fun _ _ => some StoreError.conflict,
       fun _ => none, fun _ _ => none, fun _ => none⟩
      ⟨ManagementState.Managed⟩ (by decide) (by decide)).1⟩

/-- C3: a rule whose source is the empty sentinel makes the pass issue a
delete of the destination, and a not-found delete outcome contributes
nothing to the collected error list. -/
theorem claim_C3_delete_mirroring (b : SyncBackend) (acc : List String × List SyncOp)
    (d : ResourceLocation) (c : ResourceSyncController) (spec : OperatorSpec)
    (h1 : spec.managementState ≠ ManagementState.Unmanaged)
    (h2 : spec.managementState ≠ ManagementState.Removed)
    (hcm : (d, emptyResourceLocation) ∈ c.configMapSyncRules)
    (hsec : (d, emptyResourceLocation) ∈ c.secretSyncRules) :
    syncConfigMapRuleStep b acc (d, emptyResourceLocation)
      = (acc.1 ++ (match b.deleteConfigMap d with
                   | some e => if IsNotFound e then [] else [errString e]
                   | none => []),
         acc.2 ++ [SyncOp.deleteConfigMap d])
    ∧ syncSecretRuleStep b acc (d, emptyResourceLocation)
      = (acc.1 ++ (match b.deleteSecret d with
                   | some e => if IsNotFound e then [] else [errString e]
                   | none => []),
         acc.2 ++ [SyncOp.deleteSecret d])
    ∧ SyncOp.deleteConfigMap d ∈ (sync c (.ok spec) b).2
    ∧ SyncOp.deleteSecret d ∈ (sync c (.ok spec) b).2 := by
  have hcmop : configMapRuleOp d emptyResourceLocation = SyncOp.deleteConfigMap d := by
    simp [configMapRuleOp]
  have hsecop : secretRuleOp d emptyResourceLocation = SyncOp.deleteSecret d := by
    simp [secretRuleOp]
  refine ⟨?_, ?_, ?_, ?_⟩
  · rw [syncConfigMapRuleStep_eq, hcmop]
    unfold cmRuleErrs
    simp
  · rw [syncSecretRuleStep_eq, hsecop]
    unfold secretRuleErrs
    simp
  · rw [sync_managed c b spec h1 h2]
    apply List.mem_append_left
    simp only [processRules_eq]
    exact List.mem_append_left _
      (List.mem_map.2 ⟨(d, emptyResourceLocation), hcm, hcmop⟩)
  · rw [sync_managed c b spec h1 h2]
    apply List.mem_append_left
    simp only [processRules_eq]
    exact List.mem_append_right _
      (List.mem_map.2 ⟨(d, emptyResourceLocation), hsec, hsecop⟩)

/-- Witness for C3: both tables hold a delete rule for the same destination,
the config-map delete reports not-found (absorbed) and both delete
operations appear in the pass trace. -/
theorem claim_C3_delete_mirroring_witness :
    ((⟨ManagementState.Managed⟩ : OperatorSpec).managementState
        ≠ ManagementState.Unmanaged)
    ∧ ((⟨"ns", "gone"⟩, emptyResourceLocation)
        ∈ (⟨[(⟨"ns", "gone"⟩, emptyResourceLocation)],
            [(⟨"ns", "gone"⟩, emptyResourceLocation)], ["ns"], 0⟩
          : ResourceSyncController).configMapSyncRules)
    ∧ syncConfigMapRuleStep
        ⟨fun _ => some StoreError.notFound, fun _ _ => none,
         fun _ => some StoreError.notFound, fun _ _ => none, fun _ => none⟩
        ([], []) (⟨"ns", "gone"⟩, emptyResourceLocation)
      = (([] : List String)
           ++ (match (⟨fun _ => some StoreError.notFound, fun _ _ => none,
                      fun _ => some StoreError.notFound, fun _ _ => none,
                      fun _ => none⟩ : SyncBackend).deleteConfigMap ⟨"ns", "gone"⟩ with
               | some e => if IsNotFound e then [] else [errString e]
               | none => []),
         ([] : List SyncOp) ++ [SyncOp.deleteConfigMap ⟨"ns", "gone"⟩]) :=
  ⟨by decide, by decide,
    (claim_C3_delete_mirroring
      ⟨fun _ => some StoreError.notFound, fun _ _ => none,
       fun _ => some StoreError.notFound, fun _ _ => none, fun _ => none⟩
      ([], []) ⟨"ns", "gone"⟩
      ⟨[(⟨"ns", "gone"⟩, emptyResourceLocation)],
       [(⟨"ns", "gone"⟩, emptyResourceLocation)], ["ns"], 0⟩
      ⟨ManagementState.Managed⟩ (by decide) (by decide) (by decide) (by decide)).1⟩

theorem applyRegistration_known (c : ResourceSyncController) (r : Registration) :
    (applyRegistration c r).knownNamespaces = c.knownNamespaces := by
  obtain ⟨k, dst, src⟩ := r
  cases k with
  | configMap =>
    show (SyncConfigMap c dst src).1.knownNamespaces = _
    rw [SyncConfigMap_fst]
    split <;> rfl
  | secret =>
    show (SyncSecret c dst src).1.knownNamespaces = _
    rw [SyncSecret_fst]
    split <;> rfl

theorem applyRegistration_cmRules (c : ResourceSyncController) (r : Registration) :
    (applyRegistration c r).configMapSyncRules
      = if r.kind = RegistrationKind.configMap
           ∧ registrationAccepted c.knownNamespaces r = true
        then mapWrite c.configMapSyncRules r.destination r.source
        else c.configMapSyncRules := by
  obtain ⟨k, dst, src⟩ := r
  cases k with
  | configMap =>
    show (SyncConfigMap c dst src).1.configMapSyncRules = _
    rw [SyncConfigMap_fst]
    by_cases h : registrationAccepted c.knownNamespaces ⟨RegistrationKind.configMap, dst, src⟩ = true
    · simp [h]
    · simp [h]
  | secret =>
    show (SyncSecret c dst src).1.configMapSyncRules = _
    rw [SyncSecret_fst]
    split <;> simp

theorem applyRegistration_secretRules (c : ResourceSyncController) (r : Registration) :
    (applyRegistration c r).secretSyncRules
      = if r.kind = RegistrationKind.secret
           ∧ registrationAccepted c.knownNamespaces r = true
        then mapWrite c.secretSyncRules r.destination r.source
        else c.secretSyncRules := by
  obtain ⟨k, dst, src⟩ := r
  cases k with
  | configMap =>
    show (SyncConfigMap c dst src).1.secretSyncRules = _
    rw [SyncConfigMap_fst]
    split <;> simp
  | secret =>
    show (SyncSecret c dst src).1.secretSyncRules = _
    rw [SyncSecret_fst]
    by_cases h : registrationAccepted c.knownNamespaces ⟨RegistrationKind.secret, dst, src⟩ = true
    · simp [h]
    · simp [h]

theorem applyRegistration_cmLookup (c : ResourceSyncController) (r : Registration)
    (d : ResourceLocation) :
    (applyRegistration c r).configMapSyncRules.lookup d
      = if r.kind = RegistrationKind.configMap ∧ r.destination = d
           ∧ registrationAccepted c.knownNamespaces r = true
        then some r.source
        else c.configMapSyncRules.lookup d := by
  rw [applyRegistration_cmRules]
  by_cases h1 : r.kind = RegistrationKind.configMap
      ∧ registrationAccepted c.knownNamespaces r = true
  · rw [if_pos h1, lookup_mapWrite]
    by_cases h2 : d = r.destination
    · rw [if_pos h2, if_pos ⟨h1.1, h2.symm, h1.2⟩]
    · rw [if_neg h2, if_neg (by intro hh; exact h2 hh.2.1.symm)]
  · rw [if_neg h1, if_neg (by intro hh; exact h1 ⟨hh.1, hh.2.2⟩)]

theorem applyRegistration_secretLookup (c : ResourceSyncController) (r : Registration)
    (d : ResourceLocation) :
    (applyRegistration c r).secretSyncRules.lookup d
      = if r.kind = RegistrationKind.secret ∧ r.destination = d
           ∧ registrationAccepted c.knownNamespaces r = true
        then some r.source
        else c.secretSyncRules.lookup d := by
  rw [applyRegistration_secretRules]
  by_cases h1 : r.kind = RegistrationKind.secret
      ∧ registrationAccepted c.knownNamespaces r = true
  · rw [if_pos h1, lookup_mapWrite]
    by_cases h2 : d = r.destination
    · rw [if_pos h2, if_pos ⟨h1.1, h2.symm, h1.2⟩]
    · rw [if_neg h2, if_neg (by intro hh; exact h2 hh.2.1.symm)]
  · rw [if_neg h1, if_neg (by intro hh; exact h1 ⟨hh.1, hh.2.2⟩)]

theorem applyRegistrations_spec (namespaces : List String) (rs : List Registration) :
    ∀ c, c.knownNamespaces = namespaces →
      (applyRegistrations c rs).knownNamespaces = namespaces
      ∧ ((c.configMapSyncRules.map Prod.fst).Nodup →
          ((applyRegistrations c rs).configMapSyncRules.map Prod.fst).Nodup)
      ∧ ((c.secretSyncRules.map Prod.fst).Nodup →
          ((applyRegistrations c rs).secretSyncRules.map Prod.fst).Nodup)
      ∧ (∀ d, (applyRegistrations c rs).configMapSyncRules.lookup d
            = latestSource namespaces RegistrationKind.configMap d
                (c.configMapSyncRules.lookup d) rs)
      ∧ (∀ d, (applyRegistrations c rs).secretSyncRules.lookup d
            = latestSource namespaces RegistrationKind.secret d
                (c.secretSyncRules.lookup d) rs) := by
  induction rs with
  | nil =>
    intro c hc
    exact ⟨hc, fun h => h, fun h => h, fun d => rfl, fun d => rfl⟩
  | cons r rest ih =>
    intro c hc
    have hknown : (applyRegistration c r).knownNamespaces = namespaces := by
      rw [applyRegistration_known, hc]
    obtain ⟨k1, k2, k3, k4, k5⟩ := ih (applyRegistration c r) hknown
    refine ⟨k1, ?_, ?_, ?_, ?_⟩
    · intro hnd
      apply k2
      rw [applyRegistration_cmRules]
      split
      · exact nodup_keys_mapWrite _ _ hnd
      · exact hnd
    · intro hnd
      apply k3
      rw [applyRegistration_secretRules]
      split
      · exact nodup_keys_mapWrite _ _ hnd
      · exact hnd
    · intro d
      rw [show applyRegistrations c (r :: rest)
            = applyRegistrations (applyRegistration c r) rest from rfl]
      rw [k4 d, applyRegistration_cmLookup, hc]
      rfl
    · intro d
      rw [show applyRegistrations c (r :: rest)
            = applyRegistrations (applyRegistration c r) rest from rfl]
      rw [k5 d, applyRegistration_secretLookup, hc]
      rfl

/-- C9: after any sequence of registration calls, each rule table has at
most one entry per destination, and the entry for a destination is exactly
the source of the most recent accepted registration for it — a second
registration replaces, never appends. -/
theorem claim_C9_rule_overwrite (namespaces : List String) (rs : List Registration)
    (d : ResourceLocation) :
    ((applyRegistrations (newResourceSyncController namespaces) rs).configMapSyncRules.map
        Prod.fst).Nodup
    ∧ ((applyRegistrations (newResourceSyncController namespaces) rs).secretSyncRules.map
        Prod.fst).Nodup
    ∧ (applyRegistrations (newResourceSyncController namespaces)
          rs).configMapSyncRules.lookup d
        = latestSource namespaces RegistrationKind.configMap d none rs
    ∧ (applyRegistrations (newResourceSyncController namespaces)
          rs).secretSyncRules.lookup d
        = latestSource namespaces RegistrationKind.secret d none rs := by
  obtain ⟨h1, h2, h3, h4, h5⟩ :=
    applyRegistrations_spec namespaces rs (newResourceSyncController namespaces) rfl
  exact ⟨h2 (by simp [newResourceSyncController]),
    h3 (by simp [newResourceSyncController]), h4 d, h5 d⟩

/-- Witness for C9: two registrations for the same destination leave a
single entry holding the second source. -/
theorem claim_C9_rule_overwrite_witness :
    ((applyRegistrations (newResourceSyncController ["ns"])
        [⟨RegistrationKind.configMap, ⟨"ns", "d"⟩, ⟨"ns", "s1"⟩⟩,
         ⟨RegistrationKind.configMap, ⟨"ns", "d"⟩, ⟨"ns", "s2"⟩⟩]).configMapSyncRules.map
        Prod.fst).Nodup
    ∧ (applyRegistrations (newResourceSyncController ["ns"])
        [⟨RegistrationKind.configMap, ⟨"ns", "d"⟩, ⟨"ns", "s1"⟩⟩,
         ⟨RegistrationKind.configMap, ⟨"ns", "d"⟩, ⟨"ns", "s2"⟩⟩]).configMapSyncRules.lookup
        ⟨"ns", "d"⟩
      = latestSource ["ns"] RegistrationKind.configMap ⟨"ns", "d"⟩ none
          [⟨RegistrationKind.configMap, ⟨"ns", "d"⟩, ⟨"ns", "s1"⟩⟩,
           ⟨RegistrationKind.configMap, ⟨"ns", "d"⟩, ⟨"ns", "s2"⟩⟩] :=
  ⟨(claim_C9_rule_overwrite ["ns"]
      [⟨RegistrationKind.configMap, ⟨"ns", "d"⟩, ⟨"ns", "s1"⟩⟩,
       ⟨RegistrationKind.configMap, ⟨"ns", "d"⟩, ⟨"ns", "s2"⟩⟩] ⟨"ns", "d"⟩).1,
    (claim_C9_rule_overwrite ["ns"]
      [⟨RegistrationKind.configMap, ⟨"ns", "d"⟩, ⟨"ns", "s1"⟩⟩,
       ⟨RegistrationKind.configMap, ⟨"ns", "d"⟩, ⟨"ns", "s2"⟩⟩] ⟨"ns", "d"⟩).2.2.1⟩

end LibraryGo
